import Mathlib

/-!
Verification of the request-dispatch and format-translation pipeline of
`gamecode-tools` (`src/transform.rs`, `src/jsonrpc.rs`, `src/lib.rs`).

JSON values are embedded as the inductive `Json` below, mirroring
`serde_json::Value`; numbers are modelled as integers (the transforms and the
dispatcher treat numeric leaves opaquely, so the restriction loses nothing for
the properties proved here).  Objects are association lists in insertion
order; `mapGet` models `serde_json::Map::get`.
-/

namespace Gamecode

/-- JSON values (`serde_json::Value`), with numbers restricted to integers. -/
inductive Json where
  | null
  | bool (b : Bool)
  | num (n : Int)
  | str (s : String)
  | arr (elems : List Json)
  | obj (members : List (String × Json))
deriving Inhabited

mutual
/-- Boolean equality on `Json` (needed because `deriving DecidableEq` does not
handle the nested lists). -/
def Json.beq : Json → Json → Bool
  | .null, .null => true
  | .bool a, .bool b => a = b
  | .num a, .num b => a = b
  | .str a, .str b => a = b
  | .arr a, .arr b => Json.beqList a b
  | .obj a, .obj b => Json.beqMembers a b
  | _, _ => false

def Json.beqList : List Json → List Json → Bool
  | [], [] => true
  | a :: as₁, b :: bs₁ => Json.beq a b && Json.beqList as₁ bs₁
  | _, _ => false

def Json.beqMembers : List (String × Json) → List (String × Json) → Bool
  | [], [] => true
  | (k₁, a) :: as₁, (k₂, b) :: bs₁ =>
      k₁ = k₂ && Json.beq a b && Json.beqMembers as₁ bs₁
  | _, _ => false
end

mutual
theorem Json.beq_iff : ∀ a b : Json, Json.beq a b = true ↔ a = b
  | .null, b => by cases b <;> simp [Json.beq]
  | .bool a, b => by cases b <;> simp [Json.beq]
  | .num a, b => by cases b <;> simp [Json.beq]
  | .str a, b => by cases b <;> simp [Json.beq]
  | .arr a, b => by
      cases b <;> simp [Json.beq]
      exact Json.beqList_iff a _
  | .obj a, b => by
      cases b <;> simp [Json.beq]
      exact Json.beqMembers_iff a _

theorem Json.beqList_iff : ∀ a b : List Json, Json.beqList a b = true ↔ a = b
  | [], b => by cases b <;> simp [Json.beqList]
  | a :: as₁, [] => by simp [Json.beqList]
  | a :: as₁, b :: bs₁ => by
      simp [Json.beqList, Json.beq_iff a b, Json.beqList_iff as₁ bs₁]

theorem Json.beqMembers_iff :
    ∀ a b : List (String × Json), Json.beqMembers a b = true ↔ a = b
  | [], b => by cases b <;> simp [Json.beqMembers]
  | a :: as₁, [] => by simp [Json.beqMembers]
  | (k₁, a) :: as₁, (k₂, b) :: bs₁ => by
      simp [Json.beqMembers, Json.beq_iff a b, Json.beqMembers_iff as₁ bs₁,
        and_assoc]
end

instance : DecidableEq Json := fun a b =>
  decidable_of_iff (Json.beq a b = true) (Json.beq_iff a b)

/-- `serde_json::Map::get`. -/
def mapGet (m : List (String × Json)) (k : String) : Option Json :=
  match m with
  | [] => none
  | (k₁, v) :: rest => if k₁ = k then some v else mapGet rest k

/-- `serde_json::Map::contains_key`. -/
def mapContains (m : List (String × Json)) (k : String) : Bool :=
  (mapGet m k).isSome

/-- The dead-code guard of `to_bedrock_format` (`transform.rs` lines 137-141):
an object holding both a `"type"` and a `"text"` key. -/
def alreadyWrapped (v : Json) : Bool :=
  match v with
  | .obj m => mapContains m "type" && mapContains m "text"
  | _ => false

mutual
/-- `FormatTransformer::to_bedrock_format` (`transform.rs` lines 117-149).
Objects and arrays are rebuilt member-wise; every other value reaches the
final match arm, whose `alreadyWrapped` check is kept exactly as in the
source even though no object can reach that arm. -/
def to_bedrock_format : Json → Json
  | .obj m => .obj (toBedrockMembers m)
  | .arr elems => .arr (toBedrockElems elems)
  | v =>
      if alreadyWrapped v then v
      else .obj [("type", .str "text"), ("text", v)]

/-- Member-wise rebuild of an object for `to_bedrock_format`. -/
def toBedrockMembers : List (String × Json) → List (String × Json)
  | [] => []
  | (k, v) :: rest => (k, to_bedrock_format v) :: toBedrockMembers rest

/-- Element-wise rebuild of an array for `to_bedrock_format`. -/
def toBedrockElems : List Json → List Json
  | [] => []
  | v :: rest => to_bedrock_format v :: toBedrockElems rest
end

/-- A value found in an association list is smaller than the list. -/
theorem mapGet_sizeOf_lt {m : List (String × Json)} {k : String} {v : Json}
    (h : mapGet m k = some v) : sizeOf v < sizeOf m := by
  induction m with
  | nil => simp [mapGet] at h
  | cons kv rest ih =>
    obtain ⟨k₁, v₁⟩ := kv
    simp only [mapGet] at h
    split at h
    · cases h
      simp
      omega
    · have := ih h
      simp
      omega

mutual
/-- `FormatTransformer::from_bedrock_format` (`transform.rs` lines 152-179).
An object whose `"type"` member is the string `"text"` and which has a
`"text"` member collapses to the recursively unwrapped `"text"` member;
any other object or array recurses member-wise; leaves pass through. -/
def from_bedrock_format : Json → Json
  | .obj m =>
      match h₁ : mapGet m "type", h₂ : mapGet m "text" with
      | some (.str typ), some content =>
          if typ = "text" then from_bedrock_format content
          else .obj (fromBedrockMembers m)
      | _, _ => .obj (fromBedrockMembers m)
  | .arr elems => .arr (fromBedrockElems elems)
  | v => v
termination_by j => sizeOf j
decreasing_by
  all_goals simp_wf
  all_goals first
    | (have hlt := mapGet_sizeOf_lt h₂; omega)
    | omega

/-- Member-wise rebuild of an object for `from_bedrock_format`. -/
def fromBedrockMembers : List (String × Json) → List (String × Json)
  | [] => []
  | (k, v) :: rest => (k, from_bedrock_format v) :: fromBedrockMembers rest
termination_by m => sizeOf m

/-- Element-wise rebuild of an array for `from_bedrock_format`. -/
def fromBedrockElems : List Json → List Json
  | [] => []
  | v :: rest => from_bedrock_format v :: fromBedrockElems rest
termination_by l => sizeOf l
end

/-! ### Shape lemmas about the transforms -/

/-- `to_bedrock_format` never produces a bare string: every branch returns an
object or an array. -/
theorem to_bedrock_format_ne_str (v : Json) (s : String) :
    to_bedrock_format v ≠ .str s := by
  cases v <;> simp [to_bedrock_format, alreadyWrapped]

/-- Looking up a key in a member-wise rebuilt object finds the rebuilt value. -/
theorem mapGet_toBedrockMembers (m : List (String × Json)) (k : String) :
    mapGet (toBedrockMembers m) k = (mapGet m k).map to_bedrock_format := by
  induction m with
  | nil => simp [toBedrockMembers, mapGet]
  | cons kv rest ih =>
    obtain ⟨k₁, v⟩ := kv
    simp only [toBedrockMembers, mapGet]
    split <;> simp [ih]

/-- Collapse equation for `from_bedrock_format` on a wrapper-shaped object:
when `"type"` maps to the string `"text"` and a `"text"` member exists, the
result is the recursively unwrapped `"text"` member. -/
theorem from_bedrock_obj_collapse (m : List (String × Json)) (content : Json)
    (h₁ : mapGet m "type" = some (.str "text"))
    (h₂ : mapGet m "text" = some content) :
    from_bedrock_format (.obj m) = from_bedrock_format content := by
  rw [from_bedrock_format]
  split
  · next typ c hty htx =>
      rw [h₁] at hty
      rw [h₂] at htx
      cases hty
      cases htx
      simp
  · next hne =>
      exact absurd (hne "text" content h₁ h₂) (by simp)

/-- Fall-through equation for `from_bedrock_format` on an object whose
`"type"` member is never a bare string: the object is rebuilt member-wise. -/
theorem from_bedrock_obj_recurse {m : List (String × Json)}
    (h : ∀ s : String, mapGet m "type" ≠ some (.str s)) :
    from_bedrock_format (.obj m) = .obj (fromBedrockMembers m) := by
  rw [from_bedrock_format]
  split
  · next typ c hty htx => exact absurd hty (h typ)
  · rfl

mutual
/-- Round-trip: unwrapping after wrapping restores the original value, for
every JSON value. -/
theorem from_to_bedrock : ∀ v : Json,
    from_bedrock_format (to_bedrock_format v) = v
  | .null => by
      simp [to_bedrock_format, alreadyWrapped, from_bedrock_format, mapGet]
  | .bool b => by
      simp [to_bedrock_format, alreadyWrapped, from_bedrock_format, mapGet]
  | .num n => by
      simp [to_bedrock_format, alreadyWrapped, from_bedrock_format, mapGet]
  | .str s => by
      simp [to_bedrock_format, alreadyWrapped, from_bedrock_format, mapGet]
  | .arr elems => by
      simp only [to_bedrock_format, from_bedrock_format]
      rw [from_to_bedrock_elems elems]
  | .obj m => by
      simp only [to_bedrock_format]
      rw [from_bedrock_obj_recurse (fun s => by
        rw [mapGet_toBedrockMembers]
        cases h : mapGet m "type" with
        | none => simp
        | some w => simpa using to_bedrock_format_ne_str w s)]
      rw [from_to_bedrock_members m]

theorem from_to_bedrock_members : ∀ m : List (String × Json),
    fromBedrockMembers (toBedrockMembers m) = m
  | [] => by simp [toBedrockMembers, fromBedrockMembers]
  | (k, v) :: rest => by
      simp only [toBedrockMembers, fromBedrockMembers]
      rw [from_to_bedrock v, from_to_bedrock_members rest]

theorem from_to_bedrock_elems : ∀ l : List Json,
    fromBedrockElems (toBedrockElems l) = l
  | [] => by simp [toBedrockElems, fromBedrockElems]
  | v :: rest => by
      simp only [toBedrockElems, fromBedrockElems]
      rw [from_to_bedrock v, from_to_bedrock_elems rest]
end

/-! ### Format configuration (`transform.rs` lines 10-114) -/

/-- `InputFormat`. -/
inductive InputFormat where
  | standard
  | bedrock
deriving DecidableEq

/-- `OutputFormat`. -/
inductive OutputFormat where
  | standard
  | bedrock
deriving DecidableEq

/-- `FormatConfig`. -/
structure FormatConfig where
  input_format : InputFormat
  output_format : OutputFormat
deriving DecidableEq

/-- `FormatTransformer`. -/
structure FormatTransformer where
  config : FormatConfig
deriving DecidableEq

/-- `FormatTransformer::standard`. -/
def FormatTransformer.standard : FormatTransformer :=
  ⟨⟨.standard, .standard⟩⟩

/-- `FormatTransformer::bedrock`. -/
def FormatTransformer.bedrock : FormatTransformer :=
  ⟨⟨.bedrock, .bedrock⟩⟩

/-- The library `Error` type (`lib.rs` lines 22-33); the `std::io::Error` and
`serde_json::Error` payloads are modelled by their display strings, which is
all the envelope construction ever reads from them. -/
inductive Error where
  | io (msg : String)
  | json (msg : String)
  | invalidParam (msg : String)
  | permissionDenied (msg : String)
  | other (msg : String)
deriving DecidableEq

/-- `FormatTransformer::transform_params` (`transform.rs` lines 182-187). -/
def transform_params (t : FormatTransformer) (params : Json) :
    Except Error Json :=
  match t.config.input_format with
  | .standard => .ok params
  | .bedrock => .ok (from_bedrock_format params)

/-- `FormatTransformer::transform_result` (`transform.rs` lines 190-196). -/
def transform_result (t : FormatTransformer) (result : Json) :
    Except Error Json :=
  match t.config.output_format with
  | .standard => .ok result
  | .bedrock => .ok (to_bedrock_format result)

/-! ### Envelope model (`jsonrpc.rs` lines 11-135) -/

/-- `RpcError` (`jsonrpc.rs` lines 60-69). -/
structure RpcError where
  code : Int
  message : String
  data : Option Json
deriving DecidableEq

/-- `SuccessResponse` with a JSON result (`jsonrpc.rs` lines 38-46). -/
structure SuccessResponse where
  jsonrpc : String
  result : Json
  id : Json
deriving DecidableEq

/-- `ErrorResponse` (`jsonrpc.rs` lines 49-57). -/
structure ErrorResponse where
  jsonrpc : String
  error : RpcError
  id : Json
deriving DecidableEq

/-- `Response` (`jsonrpc.rs` lines 72-79). -/
inductive Response where
  | success (r : SuccessResponse)
  | error (r : ErrorResponse)
deriving DecidableEq

/-- `success` (`jsonrpc.rs` lines 82-88). -/
def success (result : Json) (id : Json) : Response :=
  .success ⟨"2.0", result, id⟩

/-- `error` (`jsonrpc.rs` lines 91-109): convert a library `Error` into a
Failure envelope with the code and message fixed by the error's kind. -/
def error (e : Error) (id : Json) : Response :=
  let p : Int × String :=
    match e with
    | .io msg => (-32000, "I/O error: " ++ msg)
    | .json msg => (-32700, "Parse error: " ++ msg)
    | .invalidParam msg => (-32602, "Invalid params: " ++ msg)
    | .permissionDenied msg => (-32001, "Permission denied: " ++ msg)
    | .other msg => (-32603, msg)
  .error ⟨"2.0", ⟨p.1, p.2, none⟩, id⟩

/-- `method_not_found` (`jsonrpc.rs` lines 112-122). -/
def method_not_found (id : Json) : Response :=
  .error ⟨"2.0", ⟨-32601, "Method not found", none⟩, id⟩

/-- `invalid_request` (`jsonrpc.rs` lines 125-135). -/
def invalid_request (message : String) (id : Json) : Response :=
  .error ⟨"2.0", ⟨-32600, "Invalid request: " ++ message, none⟩, id⟩

/-! ### Serde serialization to the wire (`serde_json::to_string`) -/

/-- Lower-case hexadecimal digit. -/
def hexDigit (n : Nat) : Char :=
  if n < 10 then Char.ofNat (48 + n) else Char.ofNat (97 + n - 10)

/-- serde's string escaping: quote, backslash, the short control escapes, and
`\u00XX` for the remaining control characters. -/
def escapeChar (c : Char) : List Char :=
  if c = '"' then ['\\', '"']
  else if c = '\\' then ['\\', '\\']
  else if c = '\x08' then ['\\', 'b']
  else if c = '\x0c' then ['\\', 'f']
  else if c = '\n' then ['\\', 'n']
  else if c = '\r' then ['\\', 'r']
  else if c = '\t' then ['\\', 't']
  else if c.toNat < 32 then
    ['\\', 'u', '0', '0', hexDigit (c.toNat / 16), hexDigit (c.toNat % 16)]
  else [c]

/-- Escape a whole string. -/
def escapeString (s : String) : String :=
  ⟨s.data.foldr (fun c acc => escapeChar c ++ acc) []⟩

mutual
/-- Compact serialization of a JSON value, as `serde_json::to_string`
produces it. -/
def jsonToString : Json → String
  | .null => "null"
  | .bool true => "true"
  | .bool false => "false"
  | .num n => toString n
  | .str s => "\"" ++ escapeString s ++ "\""
  | .arr l => "[" ++ arrToString l ++ "]"
  | .obj m => "\x7b" ++ objToString m ++ "\x7d"

/-- Comma-separated serialization of array elements. -/
def arrToString : List Json → String
  | [] => ""
  | [v] => jsonToString v
  | v :: rest => jsonToString v ++ "," ++ arrToString rest

/-- Comma-separated serialization of object members. -/
def objToString : List (String × Json) → String
  | [] => ""
  | [(k, v)] => "\"" ++ escapeString k ++ "\":" ++ jsonToString v
  | (k, v) :: rest =>
      "\"" ++ escapeString k ++ "\":" ++ jsonToString v ++ "," ++
        objToString rest
end

/-- Serde serialization of a response envelope to a JSON value: struct
fields in declaration order, the untagged `Response` enum serializing its
payload directly, and `data` omitted when `None`
(`#[serde(skip_serializing_if = "Option::is_none")]`). -/
def responseToJson : Response → Json
  | .success r =>
      .obj [("jsonrpc", .str r.jsonrpc), ("result", r.result), ("id", r.id)]
  | .error r =>
      .obj [("jsonrpc", .str r.jsonrpc),
            ("error", .obj
              ([("code", .num r.error.code),
                ("message", .str r.error.message)] ++
                match r.error.data with
                | none => []
                | some d => [("data", d)])),
            ("id", r.id)]

/-- `serde_json::to_string` of a response envelope. -/
def responseToString (r : Response) : String :=
  jsonToString (responseToJson r)

/-! ### Wire-format parsing (`serde_json::from_str`)

A recursive-descent parser over the character list, total by a fuel
argument sized from the input.  Numbers are restricted to integer literals,
matching the integer-only `Json.num`. -/

/-- JSON whitespace. -/
def isWsChar (c : Char) : Bool :=
  c = ' ' || c = '\t' || c = '\n' || c = '\r'

/-- Drop leading whitespace. -/
def skipWs : List Char → List Char
  | [] => []
  | c :: cs => if isWsChar c then skipWs cs else c :: cs

/-- Longest digit prefix and the remainder. -/
def takeDigits : List Char → List Char × List Char
  | [] => ([], [])
  | c :: cs =>
      if c.isDigit then
        let (ds, r) := takeDigits cs
        (c :: ds, r)
      else ([], c :: cs)

/-- Decimal digits to a natural number. -/
def digitsToNat (ds : List Char) : Nat :=
  ds.foldl (fun acc c => acc * 10 + (c.toNat - 48)) 0

/-- Resolve a short escape after a backslash. -/
def unescapeChar (c : Char) : Option Char :=
  if c = '"' then some '"'
  else if c = '\\' then some '\\'
  else if c = '/' then some '/'
  else if c = 'n' then some '\n'
  else if c = 'r' then some '\r'
  else if c = 't' then some '\t'
  else if c = 'b' then some '\x08'
  else if c = 'f' then some '\x0c'
  else none

/-- Parse a string body after the opening quote, up to the closing quote. -/
def parseStringBody : List Char → Option (String × List Char)
  | [] => none
  | c :: cs =>
      if c = '"' then some ("", cs)
      else if c = '\\' then
        match cs with
        | [] => none
        | e :: cs₁ =>
          match unescapeChar e, parseStringBody cs₁ with
          | some ch, some (s, rest) => some (⟨ch :: s.data⟩, rest)
          | _, _ => none
      else
        match parseStringBody cs with
        | some (s, rest) => some (⟨c :: s.data⟩, rest)
        | none => none

/-- Match a literal suffix (the tail of `null`/`true`/`false`). -/
def dropLit : List Char → List Char → Option (List Char)
  | [], l => some l
  | p :: ps, c :: cs => if c = p then dropLit ps cs else none
  | _ :: _, [] => none

mutual
/-- Parse one JSON value (leading whitespace allowed). -/
def parseValue : Nat → List Char → Option (Json × List Char)
  | 0, _ => none
  | fuel + 1, l =>
    match skipWs l with
    | [] => none
    | c :: cs =>
      if c = 'n' then
        match dropLit "ull".data cs with
        | some rest => some (.null, rest)
        | none => none
      else if c = 't' then
        match dropLit "rue".data cs with
        | some rest => some (.bool true, rest)
        | none => none
      else if c = 'f' then
        match dropLit "alse".data cs with
        | some rest => some (.bool false, rest)
        | none => none
      else if c = '"' then
        match parseStringBody cs with
        | some (s, rest) => some (.str s, rest)
        | none => none
      else if c = '[' then
        match skipWs cs with
        | ']' :: rest => some (.arr [], rest)
        | l₁ =>
          match parseArrayItems fuel l₁ with
          | some (items, rest) => some (.arr items, rest)
          | none => none
      else if c = '\x7b' then
        match skipWs cs with
        | '\x7d' :: rest => some (.obj [], rest)
        | l₁ =>
          match parseObjectMembers fuel l₁ with
          | some (ms, rest) => some (.obj ms, rest)
          | none => none
      else if c = '-' then
        match takeDigits cs with
        | ([], _) => none
        | (ds, rest) => some (.num (-(digitsToNat ds : Int)), rest)
      else if c.isDigit then
        match takeDigits (c :: cs) with
        | (ds, rest) => some (.num (digitsToNat ds), rest)
      else none

/-- Parse one or more comma-separated array items and the closing bracket. -/
def parseArrayItems : Nat → List Char → Option (List Json × List Char)
  | 0, _ => none
  | fuel + 1, l =>
    match parseValue fuel l with
    | none => none
    | some (v, rest) =>
      match skipWs rest with
      | ',' :: rest₁ =>
        match parseArrayItems fuel rest₁ with
        | some (vs, rest₂) => some (v :: vs, rest₂)
        | none => none
      | ']' :: rest₁ => some ([v], rest₁)
      | _ => none

/-- Parse one or more comma-separated object members and the closing brace. -/
def parseObjectMembers : Nat → List Char → Option (List (String × Json) × List Char)
  | 0, _ => none
  | fuel + 1, l =>
    match skipWs l with
    | '"' :: cs =>
      match parseStringBody cs with
      | none => none
      | some (k, rest) =>
        match skipWs rest with
        | ':' :: rest₁ =>
          match parseValue fuel rest₁ with
          | none => none
          | some (v, rest₂) =>
            match skipWs rest₂ with
            | ',' :: rest₃ =>
              match parseObjectMembers fuel rest₃ with
              | some (ms, rest₄) => some ((k, v) :: ms, rest₄)
              | none => none
            | '\x7d' :: rest₃ => some ([(k, v)], rest₃)
            | _ => none
        | _ => none
    | _ => none
end

/-- `serde_json::from_str` for a whole document: one value, then at most
trailing whitespace. -/
def parseJsonText (s : String) : Option Json :=
  match parseValue (2 * s.data.length + 4) s.data with
  | some (j, rest) => if skipWs rest = [] then some j else none
  | none => none

/-! ### Dispatcher (`jsonrpc.rs` lines 137-239) -/

/-- `RawRequest` (`jsonrpc.rs` lines 26-35). -/
structure RawRequest where
  jsonrpc : String
  method : String
  params : Json
  id : Json
deriving DecidableEq

/-- serde `from_str::<RawRequest>`: the document must parse and be an object
with a string `jsonrpc` member, a string `method` member, and `params` and
`id` members; extra members are ignored (serde's default). -/
def parseRawRequest (s : String) : Except Error RawRequest :=
  match parseJsonText s with
  | none => .error (.json "expected value")
  | some (.obj m) =>
    match mapGet m "jsonrpc", mapGet m "method",
          mapGet m "params", mapGet m "id" with
    | some (.str ver), some (.str meth), some p, some i =>
        .ok ⟨ver, meth, p, i⟩
    | _, _, _, _ => .error (.json "missing or ill-typed envelope field")
  | some _ => .error (.json "expected an object")

/-- `HandlerFn` (`jsonrpc.rs` line 138): the type-erased handler; the future
is modelled by its resolved outcome. -/
def HandlerFn : Type := Json → Except Error Json

/-- `Dispatcher` (`jsonrpc.rs` lines 141-146): the handler map is an
association list with `HashMap` insert/lookup semantics. -/
structure Dispatcher where
  handlers : List (String × HandlerFn)
  transformer : FormatTransformer

/-- `HashMap::insert`: replace the value under an existing key, else add. -/
def hmInsert {α : Type} (l : List (String × α)) (k : String) (v : α) :
    List (String × α) :=
  match l with
  | [] => [(k, v)]
  | (k₁, v₁) :: rest =>
      if k₁ = k then (k, v) :: rest else (k₁, v₁) :: hmInsert rest k v

/-- `HashMap::get`. -/
def hmGet {α : Type} (l : List (String × α)) (k : String) : Option α :=
  match l with
  | [] => none
  | (k₁, v₁) :: rest => if k₁ = k then some v₁ else hmGet rest k

/-- The type-erased closure built by `Dispatcher::register` (`jsonrpc.rs`
lines 184-204): parameter transform, typed decode, handler execution, typed
encode, result transform.  The serde `deserialize`/`serialize` steps for the
concrete parameter and output types are passed in as functions, exactly as
the generic serde code is instantiated per type. -/
def erasedHandler {P O : Type} (t : FormatTransformer)
    (decodeParams : Json → Except Error P)
    (encodeOutput : O → Except Error Json)
    (handler : P → Except Error O) : HandlerFn :=
  fun params => do
    let transformed ← transform_params t params
    let typed ← decodeParams transformed
    let result ← handler typed
    let jsonResult ← encodeOutput result
    transform_result t jsonResult

/-- `Dispatcher::register` (`jsonrpc.rs` lines 174-207). -/
def register {P O : Type} (d : Dispatcher) (method : String)
    (decodeParams : Json → Except Error P)
    (encodeOutput : O → Except Error Json)
    (handler : P → Except Error O) : Dispatcher :=
  ⟨hmInsert d.handlers method
      (erasedHandler d.transformer decodeParams encodeOutput handler),
    d.transformer⟩

/-- `Dispatcher::dispatch` (`jsonrpc.rs` lines 210-238). -/
def dispatch (d : Dispatcher) (request : String) : Except Error String := do
  let raw ← parseRawRequest request
  if raw.jsonrpc ≠ "2.0" then
    pure (responseToString (invalid_request "Invalid JSONRPC version" raw.id))
  else
    match hmGet d.handlers raw.method with
    | some handler =>
      match handler raw.params with
      | .ok result => pure (responseToString (success result raw.id))
      | .error e => pure (responseToString (error e raw.id))
    | none => pure (responseToString (method_not_found raw.id))

instance {ε α : Type} [DecidableEq ε] [DecidableEq α] :
    DecidableEq (Except ε α) := fun a b =>
  match a, b with
  | .ok a, .ok b =>
      if h : a = b then .isTrue (by rw [h])
      else .isFalse fun hh => h (Except.ok.inj hh)
  | .error a, .error b =>
      if h : a = b then .isTrue (by rw [h])
      else .isFalse fun hh => h (Except.error.inj hh)
  | .ok _, .error _ => .isFalse fun hh => Except.noConfusion hh
  | .error _, .ok _ => .isFalse fun hh => Except.noConfusion hh

/-! ### Registry lemmas -/

/-- Looking up a key right after inserting it finds the inserted value. -/
theorem hmGet_hmInsert_same {α : Type} (l : List (String × α)) (k : String)
    (v : α) : hmGet (hmInsert l k v) k = some v := by
  induction l with
  | nil => simp [hmInsert, hmGet]
  | cons kv rest ih =>
    obtain ⟨k₁, v₁⟩ := kv
    simp only [hmInsert]
    split
    · simp [hmGet]
    · next hne => simp [hmGet, hne, ih]

/-- Inserting twice under the same key is the same as inserting once with the
second value. -/
theorem hmInsert_hmInsert_same {α : Type} (l : List (String × α)) (k : String)
    (v₁ v₂ : α) : hmInsert (hmInsert l k v₁) k v₂ = hmInsert l k v₂ := by
  induction l with
  | nil => simp [hmInsert]
  | cons kv rest ih =>
    obtain ⟨k₁, w⟩ := kv
    simp only [hmInsert]
    split
    · simp [hmInsert]
    · next hne => simp [hmInsert, hne, ih]

/-- The echo scenario: a dispatcher in the Plain/Plain (Standard/Standard)
configuration with one method `"echo"` whose tool returns its typed input
parameters verbatim (`P = O = Json`, with serde decode/encode on
`serde_json::Value` being the identity). -/
def echoDispatcher : Dispatcher :=
  register ⟨[], FormatTransformer.standard⟩ "echo"
    (fun j => Except.ok j) (fun j => Except.ok j) (fun j => Except.ok j)

/-! ### The claims -/

/-- C1: the spec says an object carrying both a `"type"` and a `"text"` key
is returned unchanged by the plain-to-wrapped transform.  The source's guard
(`transform.rs` lines 136-141) sits in the catch-all match arm, which an
object can never reach, so the wrapper-shaped object
`("type" ↦ "text", "text" ↦ "hi")` is recursed into and each of its string
members is itself wrapped, instead of being returned unchanged. -/
theorem to_bedrock_wrapper_shaped_is_recursed :
    to_bedrock_format (.obj [("type", .str "text"), ("text", .str "hi")]) =
      .obj [("type", .obj [("type", .str "text"), ("text", .str "text")]),
            ("text", .obj [("type", .str "text"), ("text", .str "hi")])] ∧
    to_bedrock_format (.obj [("type", .str "text"), ("text", .str "hi")]) ≠
      .obj [("type", .str "text"), ("text", .str "hi")] ∧
    transform_result FormatTransformer.bedrock
        (.obj [("type", .str "text"), ("text", .str "hi")]) =
      .ok (.obj [("type", .obj [("type", .str "text"), ("text", .str "text")]),
                 ("text", .obj [("type", .str "text"), ("text", .str "hi")])]) := by
  refine ⟨rfl, ?_, rfl⟩
  decide

/-- C2: for every JSON value not already shaped like a wrapper (no object
with both a `"type"` and a `"text"` key at the top), unwrapping after
wrapping restores the original value. -/
theorem unwrap_wrap_roundtrip (v : Json) (h : alreadyWrapped v = false) :
    from_bedrock_format (to_bedrock_format v) = v :=
  from_to_bedrock v

/-- Witness for C2 at the non-wrapper object `("x" ↦ 1)`. -/
theorem unwrap_wrap_roundtrip_witness :
    alreadyWrapped (.obj [("x", .num 1)]) = false ∧
    from_bedrock_format (to_bedrock_format (.obj [("x", .num 1)])) =
      .obj [("x", .num 1)] :=
  ⟨rfl, unwrap_wrap_roundtrip (.obj [("x", .num 1)]) rfl⟩

/-- C3 counterexample: the wire strings of the claim use the field name
`protocol_version`, but the serde envelope (`RawRequest`, `jsonrpc.rs` lines
26-35) requires the field to be named `jsonrpc`, so dispatching the claim's
request string is a hard parse failure, not the claimed success response. -/
theorem dispatch_protocol_version_key_rejected :
    dispatch echoDispatcher
        "\x7b\"protocol_version\":\"2.0\",\"method\":\"echo\",\"params\":\x7b\"x\":1\x7d,\"id\":1\x7d" =
      Except.error (.json "missing or ill-typed envelope field") ∧
    dispatch echoDispatcher
        "\x7b\"protocol_version\":\"2.0\",\"method\":\"echo\",\"params\":\x7b\"x\":1\x7d,\"id\":1\x7d" ≠
      Except.ok "\x7b\"protocol_version\":\"2.0\",\"result\":\x7b\"x\":1\x7d,\"id\":1\x7d" := by
  refine ⟨rfl, ?_⟩
  decide

/-- C3 as amended: with the version field spelled `jsonrpc` as on the real
wire, dispatching the echo request under the Plain/Plain configuration
returns the corresponding success wire string. -/
theorem dispatch_echo_plain_plain :
    dispatch echoDispatcher
        "\x7b\"jsonrpc\":\"2.0\",\"method\":\"echo\",\"params\":\x7b\"x\":1\x7d,\"id\":1\x7d" =
      Except.ok "\x7b\"jsonrpc\":\"2.0\",\"result\":\x7b\"x\":1\x7d,\"id\":1\x7d" := by
  rfl

/-- C4: the error-to-envelope conversion (`error`, `jsonrpc.rs` lines
91-109) maps each kind of failure to its fixed code — I/O to -32000,
permission to -32001, parameter decode to -32602, JSON to -32700 and every
other failure to -32603 — for every carried payload and id. -/
theorem error_code_fixed_by_kind (msg : String) (id : Json) :
    error (.io msg) id =
      .error ⟨"2.0", ⟨-32000, "I/O error: " ++ msg, none⟩, id⟩ ∧
    error (.permissionDenied msg) id =
      .error ⟨"2.0", ⟨-32001, "Permission denied: " ++ msg, none⟩, id⟩ ∧
    error (.invalidParam msg) id =
      .error ⟨"2.0", ⟨-32602, "Invalid params: " ++ msg, none⟩, id⟩ ∧
    error (.json msg) id =
      .error ⟨"2.0", ⟨-32700, "Parse error: " ++ msg, none⟩, id⟩ ∧
    error (.other msg) id =
      .error ⟨"2.0", ⟨-32603, msg, none⟩, id⟩ :=
  ⟨rfl, rfl, rfl, rfl, rfl⟩

/-- C5: a request that parses but carries a protocol version other than
`"2.0"` yields the serialized -32600 Failure envelope with the parsed id,
for every dispatcher (so for every handler registry, which is never
consulted) and every method and params. -/
theorem dispatch_wrong_version (d : Dispatcher) (s : String) (r : RawRequest)
    (hp : parseRawRequest s = .ok r) (hv : r.jsonrpc ≠ "2.0") :
    dispatch d s = .ok (responseToString
      (.error ⟨"2.0", ⟨-32600, "Invalid request: Invalid JSONRPC version",
        none⟩, r.id⟩)) := by
  simp [dispatch, hp, hv, invalid_request, bind, Except.bind, pure,
    Except.pure]

/-- Witness for C5: version `"1.0"` against the echo dispatcher. -/
theorem dispatch_wrong_version_witness :
    dispatch echoDispatcher
        "\x7b\"jsonrpc\":\"1.0\",\"method\":\"echo\",\"params\":1,\"id\":7\x7d" =
      .ok (responseToString
        (.error ⟨"2.0", ⟨-32600, "Invalid request: Invalid JSONRPC version",
          none⟩, .num 7⟩)) :=
  dispatch_wrong_version echoDispatcher _ ⟨"1.0", "echo", .num 1, .num 7⟩
    rfl (by decide)

/-- C6: a request that parses with the correct version but whose method is
not in the registry yields the serialized -32601 Failure envelope with the
parsed id, for every dispatcher satisfying the lookup failure (so no stored
closure is invoked — the conclusion does not depend on any handler). -/
theorem dispatch_method_not_found (d : Dispatcher) (s : String)
    (r : RawRequest) (hp : parseRawRequest s = .ok r)
    (hv : r.jsonrpc = "2.0") (hm : hmGet d.handlers r.method = none) :
    dispatch d s = .ok (responseToString
      (.error ⟨"2.0", ⟨-32601, "Method not found", none⟩, r.id⟩)) := by
  simp [dispatch, hp, hv, hm, method_not_found, bind, Except.bind, pure,
    Except.pure]

/-- Witness for C6: an unregistered method name on the echo dispatcher. -/
theorem dispatch_method_not_found_witness :
    dispatch echoDispatcher
        "\x7b\"jsonrpc\":\"2.0\",\"method\":\"nope\",\"params\":1,\"id\":3\x7d" =
      .ok (responseToString
        (.error ⟨"2.0", ⟨-32601, "Method not found", none⟩, .num 3⟩)) :=
  dispatch_method_not_found echoDispatcher _ ⟨"2.0", "nope", .num 1, .num 3⟩
    rfl rfl rfl

/-- C7: dispatch surfaces a hard failure (`Err`) to its caller exactly when
the request string cannot be parsed into a complete envelope; whenever
parsing succeeds, dispatch returns `Ok` with some serialized envelope, no
matter how the pipeline goes. -/
theorem dispatch_hard_failure_iff_parse_failure (d : Dispatcher) (s : String) :
    (∀ e, parseRawRequest s = .error e → dispatch d s = .error e) ∧
    (∀ r, parseRawRequest s = .ok r → ∃ out, dispatch d s = .ok out) := by
  constructor
  · intro e he
    simp [dispatch, he, bind, Except.bind]
  · intro r hr
    simp only [dispatch, hr, bind, Except.bind]
    by_cases hv : r.jsonrpc = "2.0"
    · simp only [hv]
      cases hg : hmGet d.handlers r.method with
      | none =>
        exact ⟨responseToString (method_not_found r.id),
          by simp [hg, pure, Except.pure]⟩
      | some handler =>
        cases hh : handler r.params with
        | ok result =>
          exact ⟨responseToString (success result r.id),
            by simp [hg, hh, pure, Except.pure]⟩
        | error e =>
          exact ⟨responseToString (error e r.id),
            by simp [hg, hh, pure, Except.pure]⟩
    · exact ⟨responseToString (invalid_request "Invalid JSONRPC version" r.id),
        by simp [hv, pure, Except.pure]⟩

/-- Witness for C7: an unparseable request string surfaces as `Err`. -/
theorem dispatch_hard_failure_witness :
    dispatch echoDispatcher "not json" = .error (.json "expected value") :=
  (dispatch_hard_failure_iff_parse_failure echoDispatcher "not json").1
    (.json "expected value") rfl

/-- C8: registering a second handler under an already-registered name
silently replaces the previous entry — the resulting dispatcher is the one
obtained by registering only the second handler (so subsequent dispatches
run the last-registered pipeline), and the lookup yields the second erased
closure; registration is total, so no uniqueness error can be raised. -/
theorem register_last_write_wins {P₁ O₁ P₂ O₂ : Type} (d : Dispatcher)
    (method : String)
    (dec₁ : Json → Except Error P₁) (enc₁ : O₁ → Except Error Json)
    (h₁ : P₁ → Except Error O₁)
    (dec₂ : Json → Except Error P₂) (enc₂ : O₂ → Except Error Json)
    (h₂ : P₂ → Except Error O₂) :
    register (register d method dec₁ enc₁ h₁) method dec₂ enc₂ h₂ =
      register d method dec₂ enc₂ h₂ ∧
    hmGet (register (register d method dec₁ enc₁ h₁) method
        dec₂ enc₂ h₂).handlers method =
      some (erasedHandler d.transformer dec₂ enc₂ h₂) := by
  constructor
  · simp [register, hmInsert_hmInsert_same]
  · simp [register, hmGet_hmInsert_same]

/-- C9: the parameter and result transforms are total — under every
configured direction they return `Ok`, the `Err` branch being unreachable —
and deterministic: equal inputs under the same configuration give equal
outputs. -/
theorem transform_total_and_deterministic (t : FormatTransformer) (v : Json) :
    (∃ w, transform_params t v = .ok w) ∧
    (∃ w, transform_result t v = .ok w) ∧
    (∀ v', v = v' →
      transform_params t v = transform_params t v' ∧
      transform_result t v = transform_result t v') := by
  refine ⟨?_, ?_, ?_⟩
  · cases h : t.config.input_format <;> simp [transform_params, h]
  · cases h : t.config.output_format <;> simp [transform_result, h]
  · intro v' hv
    rw [hv]
    exact ⟨rfl, rfl⟩

/-- Witness for C9 at the Bedrock/Bedrock transformer and the value `1`. -/
theorem transform_total_and_deterministic_witness :
    (∃ w, transform_params FormatTransformer.bedrock (.num 1) = .ok w) ∧
    (∃ w, transform_result FormatTransformer.bedrock (.num 1) = .ok w) ∧
    (transform_params FormatTransformer.bedrock (.num 1) =
        transform_params FormatTransformer.bedrock (.num 1) ∧
      transform_result FormatTransformer.bedrock (.num 1) =
        transform_result FormatTransformer.bedrock (.num 1)) :=
  ⟨(transform_total_and_deterministic FormatTransformer.bedrock (.num 1)).1,
    (transform_total_and_deterministic FormatTransformer.bedrock (.num 1)).2.1,
    (transform_total_and_deterministic FormatTransformer.bedrock (.num 1)).2.2
      (.num 1) rfl⟩

/-- C10: the wrapped-to-plain transform collapses every object whose
`"type"` member is the string `"text"` and which has a `"text"` member —
regardless of any additional members — to the recursively unwrapped
`"text"` member, discarding the rest. -/
theorem from_bedrock_collapses_any_text_wrapper (m : List (String × Json))
    (content : Json) (h₁ : mapGet m "type" = some (.str "text"))
    (h₂ : mapGet m "text" = some content) :
    from_bedrock_format (.obj m) = from_bedrock_format content :=
  from_bedrock_obj_collapse m content h₁ h₂

/-- Witness for C10: a wrapper carrying an extra `"extra"` member still
collapses to its unwrapped `"text"` member. -/
theorem from_bedrock_collapses_any_text_wrapper_witness :
    from_bedrock_format (.obj [("type", .str "text"), ("text", .str "hi"),
      ("extra", .num 1)]) = from_bedrock_format (.str "hi") :=
  from_bedrock_collapses_any_text_wrapper
    [("type", .str "text"), ("text", .str "hi"), ("extra", .num 1)]
    (.str "hi") rfl rfl

end Gamecode
